import Mathlib

/-!
Shallow embedding of the bare-metal peripheral subsystem
(i2c_driver.c, ble_driver.c, hal_gic.c) and proofs about its
transfer, event-queue and interrupt-controller behaviour.

Modelling conventions:
- machine integers are Nat; every place where u32 wrap-around matters uses
  an explicit `% 4294967296`; u8 stores use `% 256`;
- pointers are Option values (none models NULL); a callback pointer is a
  Bool recording whether a non-NULL callback is installed;
- memory-mapped hardware is modelled by oracles: for blocking transfers a
  record of per-flag poll delays (the flag reads true from that poll on),
  for the interrupt entry points a snapshot of the flag register;
- register side effects named by the claims (STOP writes, ACK-clear writes,
  GIC enable writes, barriers) are made observable as counters or traces.
-/

set_option maxRecDepth 20000
set_option maxHeartbeats 1000000

namespace NavSys

/-- Status codes from types.h (status_t). -/
inductive Status where
  | ok
  | error
  | busy
  | timeout
  | invalidParam
  | notReady
  deriving DecidableEq

/-- I2C transfer states from i2c_driver.h (i2c_state_t). -/
inductive I2cState where
  | idle
  | busyTx
  | busyRx
  | error
  deriving DecidableEq

/-- Per-instance I2C handle (i2c_handle_t in i2c_driver.c). The rx buffer
pointer is an opaque identifier, the tx buffer carries the pointed-to bytes. -/
structure I2cHandle where
  state : I2cState
  rx_buffer : Option Nat
  tx_buffer : Option (List Nat)
  buffer_len : Nat
  buffer_idx : Nat
  dev_address : Nat
  callback : Bool
  initialized : Bool
  deriving DecidableEq

/-- The pair of static handles g_i2c_handles (I2C_INSTANCE_MAX = 2). -/
structure I2cDriverState where
  h0 : I2cHandle
  h1 : I2cHandle
  deriving DecidableEq

/-- Indexing g_i2c_handles[instance]; called only after the instance bound
check in the source. -/
def i2cHandleOf (s : I2cDriverState) (inst : Nat) : I2cHandle :=
  if inst = 0 then s.h0 else s.h1

/-- Writing back g_i2c_handles[instance]. -/
def setI2cHandle (s : I2cDriverState) (inst : Nat) (h : I2cHandle) : I2cDriverState :=
  if inst = 0 then { s with h0 := h } else { s with h1 := h }

/-- TIMEOUT_LOOP_COUNT from i2c_driver.c. -/
def TIMEOUT_LOOP_COUNT : Nat := 10000

/-- Size of the u32 value space. -/
def U32 : Nat := 4294967296

/-- Busy-wait budget timeout_ms * TIMEOUT_LOOP_COUNT, computed in u32. -/
def waitBudget (timeout_ms : Nat) : Nat := (timeout_ms * TIMEOUT_LOOP_COUNT) % U32

/-- Hardware timing oracle for blocking transfers. Each field is the number
of polls of the corresponding status flag before the hardware reports the
waited-for value (the SR2 BUSY flag clears after busBusyPolls polls; SB,
ADDR, TXE, BTF, RXNE become set after their delay). rxData gives the byte
stream read from DR. -/
structure I2cHw where
  busBusyPolls : Nat
  sbDelay : Nat
  addrDelay : Nat
  txeDelay : Nat → Nat
  btfDelay : Nat
  rxneDelay : Nat → Nat
  rxData : Nat → Nat

/-- i2c_wait_flag: decrements a counter of timeout * TIMEOUT_LOOP_COUNT
polls; returns STATUS_OK iff the flag reaches the expected value before the
counter is exhausted, STATUS_TIMEOUT otherwise. -/
def i2c_wait_flag (delay : Nat) (timeout : Nat) : Status :=
  if delay < waitBudget timeout then Status.ok else Status.timeout

/-- i2c_send_address: wait for SB, write the address byte to DR, wait for
ADDR and clear it by reading SR1/SR2. Only the wait outcomes are
observable in the model. -/
def i2c_send_address (hw : I2cHw) (timeout : Nat) : Status :=
  match i2c_wait_flag hw.sbDelay timeout with
  | Status.ok => i2c_wait_flag hw.addrDelay timeout
  | r => r

/-- Result of a blocking transfer: returned status, updated driver state,
bytes stored through the rx pointer, and the number of STOP and ACK-clear
register writes performed. -/
structure BlockingResult where
  status : Status
  driver : I2cDriverState
  received : List Nat
  stops : Nat
  ackClears : Nat
  deriving DecidableEq

/-- Transmit loop of i2c_write_blocking: for each byte wait for TXE, then
write data[i] to DR; the loop stops at the first non-OK wait. The second
argument is the remaining iteration count len - i. -/
def i2cWriteLoop (hw : I2cHw) (timeout : Nat) : Nat → Nat → Status
  | _, 0 => Status.ok
  | i, fuel + 1 =>
    match i2c_wait_flag (hw.txeDelay i) timeout with
    | Status.ok => i2cWriteLoop hw timeout (i + 1) fuel
    | r => r

/-- Combined outcome of the post-bus-free phase of i2c_write_blocking:
address send, transmit loop, then the BTF wait, each short-circuiting on
the first non-OK result. -/
def i2cWriteStatus (hw : I2cHw) (len timeout_ms : Nat) : Status :=
  match i2c_send_address hw timeout_ms with
  | Status.ok =>
    match i2cWriteLoop hw timeout_ms 0 len with
    | Status.ok => i2c_wait_flag hw.btfDelay timeout_ms
    | r1 => r1
  | r1 => r1

/-- i2c_write_blocking from i2c_driver.c. The bus-free wait decrements
wait_count from the budget while SR2 BUSY is set; reaching zero yields
STATUS_BUSY. Afterwards START, address, the transmit loop and the BTF wait
run, and STOP is issued unconditionally, exactly once. -/
def i2c_write_blocking (s : I2cDriverState) (inst : Nat) (dev_addr : Nat)
    (data : Option (List Nat)) (len : Nat) (timeout_ms : Nat) (hw : I2cHw) :
    BlockingResult :=
  if data = Option.none then ⟨Status.invalidParam, s, [], 0, 0⟩
  else if 2 ≤ inst then ⟨Status.invalidParam, s, [], 0, 0⟩
  else if (i2cHandleOf s inst).initialized = false then ⟨Status.notReady, s, [], 0, 0⟩
  else if len = 0 then ⟨Status.invalidParam, s, [], 0, 0⟩
  else
    let h := i2cHandleOf s inst
    if waitBudget timeout_ms ≤ hw.busBusyPolls then
      ⟨Status.busy, setI2cHandle s inst { h with state := I2cState.error }, [], 0, 0⟩
    else
      let r := i2cWriteStatus hw len timeout_ms
      ⟨r,
       setI2cHandle s inst
         { h with state := if r = Status.ok then I2cState.idle else I2cState.error },
       [], 1, 0⟩

/-- Receive loop of i2c_read_blocking: at iteration i, if i = len - 1 the
ACK bit is cleared and STOP is issued, then the loop waits for RXNE and
reads DR; it stops at the first non-OK wait. The second argument is the
remaining iteration count len - i. -/
def i2cReadLoop (hw : I2cHw) (timeout len : Nat) :
    Nat → Nat → List Nat → Nat → Nat → Status × List Nat × Nat × Nat
  | _, 0, acc, stops, acks => (Status.ok, acc, stops, acks)
  | i, fuel + 1, acc, stops, acks =>
    let stops1 := if i = len - 1 then stops + 1 else stops
    let acks1 := if i = len - 1 then acks + 1 else acks
    match i2c_wait_flag (hw.rxneDelay i) timeout with
    | Status.ok =>
        i2cReadLoop hw timeout len (i + 1) fuel (acc ++ [hw.rxData i % 256]) stops1 acks1
    | r => (r, acc, stops1, acks1)

/-- i2c_read_blocking from i2c_driver.c: validation, state := BUSY_RX, ACK
set, START, address send; on address success the receive loop runs (no
unconditional STOP afterwards), on address failure STOP is issued once. -/
def i2c_read_blocking (s : I2cDriverState) (inst : Nat) (dev_addr : Nat)
    (data : Option Nat) (len : Nat) (timeout_ms : Nat) (hw : I2cHw) :
    BlockingResult :=
  if data = Option.none then ⟨Status.invalidParam, s, [], 0, 0⟩
  else if 2 ≤ inst then ⟨Status.invalidParam, s, [], 0, 0⟩
  else if (i2cHandleOf s inst).initialized = false then ⟨Status.notReady, s, [], 0, 0⟩
  else if len = 0 then ⟨Status.invalidParam, s, [], 0, 0⟩
  else
    let h := i2cHandleOf s inst
    match i2c_send_address hw timeout_ms with
    | Status.ok =>
      let lr := i2cReadLoop hw timeout_ms len 0 len [] 0 0
      ⟨lr.1,
       setI2cHandle s inst
         { h with state := if lr.1 = Status.ok then I2cState.idle else I2cState.error },
       lr.2.1, lr.2.2.1, lr.2.2.2⟩
    | r =>
      ⟨r, setI2cHandle s inst { h with state := I2cState.error }, [], 1, 0⟩

/-- i2c_write_async from i2c_driver.c: validations (note: no zero-length
check), then the transfer fields are recorded, state := BUSY_TX and START
is issued. -/
def i2c_write_async (s : I2cDriverState) (inst : Nat) (dev_addr : Nat)
    (data : Option (List Nat)) (len : Nat) (callback : Bool) :
    Status × I2cDriverState :=
  if data = Option.none ∨ callback = false then (Status.invalidParam, s)
  else if 2 ≤ inst then (Status.invalidParam, s)
  else if (i2cHandleOf s inst).initialized = false then (Status.notReady, s)
  else if (i2cHandleOf s inst).state ≠ I2cState.idle then (Status.busy, s)
  else
    let h := i2cHandleOf s inst
    (Status.ok,
     setI2cHandle s inst
       { h with tx_buffer := data, buffer_len := len, buffer_idx := 0,
                dev_address := dev_addr, callback := true, state := I2cState.busyTx })

/-- i2c_read_async from i2c_driver.c: same validations as i2c_write_async
(again no zero-length check), then the transfer fields are recorded,
state := BUSY_RX, ACK set and START issued. -/
def i2c_read_async (s : I2cDriverState) (inst : Nat) (dev_addr : Nat)
    (data : Option Nat) (len : Nat) (callback : Bool) :
    Status × I2cDriverState :=
  if data = Option.none ∨ callback = false then (Status.invalidParam, s)
  else if 2 ≤ inst then (Status.invalidParam, s)
  else if (i2cHandleOf s inst).initialized = false then (Status.notReady, s)
  else if (i2cHandleOf s inst).state ≠ I2cState.idle then (Status.busy, s)
  else
    let h := i2cHandleOf s inst
    (Status.ok,
     setI2cHandle s inst
       { h with rx_buffer := data, buffer_len := len, buffer_idx := 0,
                dev_address := dev_addr, callback := true, state := I2cState.busyRx })

/-- i2c_deinit from i2c_driver.c: range check only, then the peripheral and
its interrupt line are disabled and the handle is marked uninitialized and
Idle. -/
def i2c_deinit (s : I2cDriverState) (inst : Nat) : Status × I2cDriverState :=
  if 2 ≤ inst then (Status.invalidParam, s)
  else
    let h := i2cHandleOf s inst
    (Status.ok,
     setI2cHandle s inst { h with initialized := false, state := I2cState.idle })

/-- Snapshot of the SR1 flags read once at the top of i2c_irq_handler. -/
structure Sr1 where
  sb : Bool
  addr : Bool
  txe : Bool
  rxne : Bool
  btf : Bool
  af : Bool
  deriving DecidableEq

/-- Async machine state: the handle plus counters of STOP and ACK-clear
register writes, the bytes stored through rx_buffer, and the statuses
passed to callback invocations. -/
structure AsyncM where
  handle : I2cHandle
  stops : Nat
  ackClears : Nat
  rxWrites : List Nat
  callbacks : List Status
  deriving DecidableEq

/-- i2c_irq_handler from i2c_driver.c, one invocation. The mutually
exclusive branch chain follows the source: SB, ADDR (pre-clearing ACK for a
one-byte receive), TXE while BUSY_TX, RXNE while BUSY_RX (the u32
comparison buffer_idx == buffer_len - 1 is modelled with the explicit
wrap-around of len - 1), AF. -/
def i2c_irq_handler (m : AsyncM) (sr1 : Sr1) (dr : Nat) : AsyncM :=
  let h := m.handle
  if sr1.sb then m
  else if sr1.addr then
    (if h.state = I2cState.busyRx ∧ h.buffer_len = 1 then
       { m with ackClears := m.ackClears + 1 }
     else m)
  else if sr1.txe ∧ h.state = I2cState.busyTx then
    (if h.buffer_idx < h.buffer_len then
       { m with handle := { h with buffer_idx := h.buffer_idx + 1 } }
     else if sr1.btf then
       { m with stops := m.stops + 1,
                handle := { h with state := I2cState.idle },
                callbacks := if h.callback then m.callbacks ++ [Status.ok] else m.callbacks }
     else m)
  else if sr1.rxne ∧ h.state = I2cState.busyRx then
    let h1 := { h with buffer_idx := h.buffer_idx + 1 }
    let m1 := { m with handle := h1, rxWrites := m.rxWrites ++ [dr % 256] }
    let m2 :=
      if h1.buffer_idx = (h1.buffer_len + (U32 - 1)) % U32 then
        { m1 with ackClears := m1.ackClears + 1, stops := m1.stops + 1 }
      else m1
    if h1.buffer_len ≤ h1.buffer_idx then
      { m2 with handle := { m2.handle with state := I2cState.idle },
                callbacks := if h.callback then m2.callbacks ++ [Status.ok] else m2.callbacks }
    else m2
  else if sr1.af then
    { m with stops := m.stops + 1,
             handle := { h with state := I2cState.error },
             callbacks := if h.callback then m.callbacks ++ [Status.error] else m.callbacks }
  else m

/-- SR1 snapshot with only SB set. -/
def sr1Sb : Sr1 := ⟨true, false, false, false, false, false⟩

/-- SR1 snapshot with only ADDR set. -/
def sr1Addr : Sr1 := ⟨false, true, false, false, false, false⟩

/-- SR1 snapshot with only RXNE set. -/
def sr1Rxne : Sr1 := ⟨false, false, false, true, false, false⟩

/-- Fresh async machine over the handle of the given instance: counters and
traces start at zero at the beginning of an async transfer. -/
def asyncStateOf (s : I2cDriverState) (inst : Nat) : AsyncM :=
  ⟨i2cHandleOf s inst, 0, 0, [], []⟩

/-- Iterates j RXNE interrupt entries, the k-th delivering byte drv k. -/
def runRxEvents (drv : Nat → Nat) (m : AsyncM) : Nat → AsyncM
  | 0 => m
  | j + 1 => i2c_irq_handler (runRxEvents drv m j) sr1Rxne (drv j)

/-- BLE link states from ble_driver.h (ble_state_t). -/
inductive BleState where
  | off
  | idle
  | advertising
  | scanning
  | connecting
  | connected
  | disconnecting
  | error
  deriving DecidableEq

/-- BLE event types from ble_driver.h (ble_event_type_t). -/
inductive BleEventType where
  | none
  | connected
  | disconnected
  | dataReceived
  | dataSent
  | advStarted
  | advStopped
  | scanResult
  | error
  deriving DecidableEq

/-- BLE event record (ble_event_t); data carries the data_len meaningful
payload bytes of the 244-byte array. -/
structure BleEvent where
  type : BleEventType
  peer_addr : List Nat
  data : List Nat
  data_len : Nat
  deriving DecidableEq

/-- BLE_MAX_PAYLOAD_SIZE from ble_driver.h. -/
def BLE_MAX_PAYLOAD_SIZE : Nat := 244

/-- BLE_EVENT_QUEUE_SIZE from ble_driver.c. -/
def BLE_EVENT_QUEUE_SIZE : Nat := 8

/-- Zero-initialized BLE event, as produced by a designated initializer. -/
def emptyBleEvent : BleEvent :=
  ⟨BleEventType.none, List.replicate 6 0, [], 0⟩

/-- BLE handle structure (ble_handle_t in ble_driver.c); event_queue is the
8-slot array, rx_buffer the 244-byte staging array. -/
structure BleHandle where
  state : BleState
  callback : Bool
  peer_addr : List Nat
  event_queue : List BleEvent
  evt_queue_head : Nat
  evt_queue_tail : Nat
  initialized : Bool
  rx_buffer : List Nat
  rx_len : Nat
  rx_pending : Bool
  tx_complete : Bool
  deriving DecidableEq

/-- The static g_ble_handle initializer (remaining fields zero). -/
def g_ble_handle : BleHandle :=
  { state := BleState.off
    callback := false
    peer_addr := List.replicate 6 0
    event_queue := List.replicate BLE_EVENT_QUEUE_SIZE emptyBleEvent
    evt_queue_head := 0
    evt_queue_tail := 0
    initialized := false
    rx_buffer := List.replicate BLE_MAX_PAYLOAD_SIZE 0
    rx_len := 0
    rx_pending := false
    tx_complete := false }

/-- ble_enqueue_event from ble_driver.c: the circular buffer refuses the
event when advancing head would meet tail. -/
def ble_enqueue_event (h : BleHandle) (event : BleEvent) : Status × BleHandle :=
  let next_head := (h.evt_queue_head + 1) % BLE_EVENT_QUEUE_SIZE
  if next_head = h.evt_queue_tail then
    (Status.error, h)
  else
    (Status.ok,
     { h with event_queue := h.event_queue.set h.evt_queue_head event,
              evt_queue_head := next_head })

/-- ble_dequeue_event from ble_driver.c: pops at tail when tail and head
differ, otherwise reports no event without touching the handle. -/
def ble_dequeue_event (h : BleHandle) : Option BleEvent × BleHandle :=
  if h.evt_queue_tail ≠ h.evt_queue_head then
    (Option.some (h.event_queue.getD h.evt_queue_tail emptyBleEvent),
     { h with evt_queue_tail := (h.evt_queue_tail + 1) % BLE_EVENT_QUEUE_SIZE })
  else
    (Option.none, h)

/-- ble_read_rx_data from ble_driver.c: the hardware-reported RX_LEN is
clamped to BLE_MAX_PAYLOAD_SIZE, that many bytes are copied into rx_buffer
and rx_pending is set. Also returns the list of buffer indices written. -/
def ble_read_rx_data (h : BleHandle) (hwRxLen : Nat) (rxData : Nat → Nat) :
    BleHandle × List Nat :=
  let rl := if BLE_MAX_PAYLOAD_SIZE < hwRxLen then BLE_MAX_PAYLOAD_SIZE else hwRxLen
  let idxs := List.range rl
  let buf := idxs.foldl (fun b i => b.set i (rxData i % 256)) h.rx_buffer
  ({ h with rx_len := rl, rx_buffer := buf, rx_pending := true }, idxs)

/-- Drain loop of ble_process: while ble_dequeue_event yields an event,
invoke the callback on it. The queue holds at most 7 events, so a fuel of
BLE_EVENT_QUEUE_SIZE iterations always reaches the empty check. Returns the
events delivered to the callback, in order. -/
def bleDrainLoop : Nat → BleHandle → List BleEvent × BleHandle
  | 0, h => ([], h)
  | fuel + 1, h =>
    match ble_dequeue_event h with
    | (Option.none, h1) => ([], h1)
    | (Option.some e, h1) =>
      let rest := bleDrainLoop fuel h1
      ((if h1.callback then [e] else []) ++ rest.1, rest.2)

/-- ble_process from ble_driver.c: if rx_pending is set, clear it, build a
DATA_RECEIVED event from the staged bytes and the peer address and invoke
the callback directly; then drain the event queue, invoking the callback
once per dequeued event. Returns the events delivered, in order. -/
def ble_process (h : BleHandle) : List BleEvent × BleHandle :=
  let step1 :=
    if h.rx_pending then
      let h1 := { h with rx_pending := false }
      let evt : BleEvent :=
        { type := BleEventType.dataReceived
          peer_addr := h.peer_addr
          data := h.rx_buffer.take h.rx_len
          data_len := h.rx_len }
      ((if h.callback then [evt] else []), h1)
    else ([], h)
  let step2 := bleDrainLoop BLE_EVENT_QUEUE_SIZE step1.2
  (step1.1 ++ step2.1, step2.2)

/-- Snapshot of the INT_FLAG register read once by ble_irq_handler. -/
structure BleIntFlags where
  connected : Bool
  disconnected : Bool
  rx_done : Bool
  tx_done : Bool
  error : Bool
  deriving DecidableEq

/-- ble_irq_handler from ble_driver.c: for each set flag, in the fixed
order connected, disconnected, rx-done, tx-done, error, the flag bit is
cleared, the link state updated and an event enqueued (rx-done stages
received bytes instead). The local evt variable is threaded through the
branches as in the source. Also returns the trace of assignments made to
the link state, in order. -/
def ble_irq_handler (h0 : BleHandle) (flags : BleIntFlags) (hwRxLen : Nat)
    (rxData : Nat → Nat) : BleHandle × List BleState :=
  let evt0 := emptyBleEvent
  let step1 :=
    if flags.connected then
      let e := { evt0 with type := BleEventType.connected, peer_addr := h0.peer_addr }
      ((ble_enqueue_event { h0 with state := BleState.connected } e).2, e,
       [BleState.connected])
    else (h0, evt0, [])
  let step2 :=
    if flags.disconnected then
      let e := { step1.2.1 with type := BleEventType.disconnected }
      ((ble_enqueue_event { step1.1 with state := BleState.idle } e).2, e,
       [BleState.idle])
    else (step1.1, step1.2.1, [])
  let h3 := if flags.rx_done then (ble_read_rx_data step2.1 hwRxLen rxData).1 else step2.1
  let step4 :=
    if flags.tx_done then
      let e := { step2.2.1 with type := BleEventType.dataSent }
      ((ble_enqueue_event { h3 with tx_complete := true } e).2, e)
    else (h3, step2.2.1)
  let step5 :=
    if flags.error then
      let e := { step4.2 with type := BleEventType.error }
      ((ble_enqueue_event { step4.1 with state := BleState.error } e).2,
       [BleState.error])
    else (step4.1, [])
  (step5.1, step1.2.2 ++ step2.2.2 ++ step5.2)

/-- Number of queued events, measured from the head and tail indices. -/
def bleQueueCount (h : BleHandle) : Nat :=
  (h.evt_queue_head + BLE_EVENT_QUEUE_SIZE - h.evt_queue_tail) % BLE_EVENT_QUEUE_SIZE

/-- The queued events in FIFO order, from tail to head. -/
def bleQueueList (h : BleHandle) : List BleEvent :=
  (List.range (bleQueueCount h)).map
    (fun i => h.event_queue.getD ((h.evt_queue_tail + i) % BLE_EVENT_QUEUE_SIZE) emptyBleEvent)

/-- GIC register-write actions observable at the distributor: a write to a
set-enable word, a write to a clear-enable word, or a data synchronization
barrier. -/
inductive GicAction where
  | isenabler (idx val : Nat)
  | icenabler (idx val : Nat)
  | dsbAct
  deriving DecidableEq

/-- Per-line enable state of the distributor. -/
structure GicSt where
  enabled : Nat → Bool

/-- Semantics of one distributor write: a set-enable write turns on every
line whose word index matches and whose bit is set in the written value; a
clear-enable write turns those lines off; a barrier changes nothing. -/
def gicApply (st : GicSt) (a : GicAction) : GicSt :=
  match a with
  | GicAction.isenabler idx val =>
    ⟨fun l => if l / 32 = idx ∧ Nat.testBit val (l % 32) then true else st.enabled l⟩
  | GicAction.icenabler idx val =>
    ⟨fun l => if l / 32 = idx ∧ Nat.testBit val (l % 32) then false else st.enabled l⟩
  | GicAction.dsbAct => st

/-- MAX_IRQ_NUM from hal_gic.c. -/
def MAX_IRQ_NUM : Nat := 256

/-- gic_enable_irq from hal_gic.c: range check, then a single write of
1 << bit_pos to GICD_ISENABLER[reg_idx] followed by DSB. Returns the
status, the resulting enable state and the action trace. -/
def gic_enable_irq (st : GicSt) (irq_num : Nat) : Status × GicSt × List GicAction :=
  if MAX_IRQ_NUM ≤ irq_num then (Status.invalidParam, st, [])
  else
    let reg_idx := irq_num / 32
    let bit_pos := irq_num % 32
    let acts := [GicAction.isenabler reg_idx (1 <<< bit_pos), GicAction.dsbAct]
    (Status.ok, acts.foldl gicApply st, acts)

/-- gic_disable_irq from hal_gic.c: range check, then a single write of
1 << bit_pos to GICD_ICENABLER[reg_idx] followed by DSB. -/
def gic_disable_irq (st : GicSt) (irq_num : Nat) : Status × GicSt × List GicAction :=
  if MAX_IRQ_NUM ≤ irq_num then (Status.invalidParam, st, [])
  else
    let reg_idx := irq_num / 32
    let bit_pos := irq_num % 32
    let acts := [GicAction.icenabler reg_idx (1 <<< bit_pos), GicAction.dsbAct]
    (Status.ok, acts.foldl gicApply st, acts)

/-- Sample handle: initialized and idle, no transfer recorded. -/
def hIdle : I2cHandle :=
  ⟨I2cState.idle, Option.none, Option.none, 0, 0, 0, false, true⟩

/-- Driver state whose instance 0 is initialized but currently BUSY_RX. -/
def sBusyRx : I2cDriverState := ⟨{ hIdle with state := I2cState.busyRx }, hIdle⟩

/-- Driver state with both instances initialized and idle. -/
def sGood : I2cDriverState := ⟨hIdle, hIdle⟩

/-- Hardware oracle on which every flag is available immediately. -/
def hwFast : I2cHw := ⟨0, 0, 0, fun _ => 0, 0, fun _ => 0, fun _ => 0⟩

/-- Hardware oracle on which RXNE never arrives within a 1 ms budget. -/
def hwRxStall : I2cHw := ⟨0, 0, 0, fun _ => 0, 0, fun _ => 10000, fun _ => 0⟩

/-- Enqueue the same event n times, collecting the returned statuses. -/
def enqueueTimes (e : BleEvent) : Nat → BleHandle → List Status × BleHandle
  | 0, h => ([], h)
  | n + 1, h =>
    let r := ble_enqueue_event h e
    let rest := enqueueTimes e n r.2
    (r.1 :: rest.1, rest.2)

/-! Helper lemmas. -/

@[simp]
lemma i2cHandleOf_setI2cHandle (s : I2cDriverState) (inst : Nat) (h : I2cHandle) :
    i2cHandleOf (setI2cHandle s inst h) inst = h := by
  unfold i2cHandleOf setI2cHandle
  split <;> simp_all

@[simp]
lemma ble_enqueue_event_state (h : BleHandle) (e : BleEvent) :
    (ble_enqueue_event h e).2.state = h.state := by
  unfold ble_enqueue_event
  dsimp only
  split <;> rfl

@[simp]
lemma ble_read_rx_data_state (h : BleHandle) (hwRxLen : Nat) (rxData : Nat → Nat) :
    (ble_read_rx_data h hwRxLen rxData).1.state = h.state := rfl

lemma testBit_one_shiftLeft (b k : Nat) :
    Nat.testBit (1 <<< b) k = decide (b = k) := by
  rw [Nat.one_shiftLeft]
  rcases eq_or_ne b k with hbk | hbk
  · subst hbk
    simp [Nat.testBit_two_pow_self]
  · simp [Nat.testBit_two_pow_of_ne hbk, hbk]

lemma i2cWriteLoop_spec (hw : I2cHw) (t : Nat) :
    ∀ (fuel i : Nat),
      i2cWriteLoop hw t i fuel =
        (if ∀ k, k < fuel → hw.txeDelay (i + k) < waitBudget t then Status.ok
         else Status.timeout) := by
  intro fuel
  induction fuel with
  | zero =>
    intro i
    simp [i2cWriteLoop]
  | succ n ih =>
    intro i
    by_cases h0 : hw.txeDelay i < waitBudget t
    · have hfl : i2cWriteLoop hw t i (n + 1) = i2cWriteLoop hw t (i + 1) n := by
        simp [i2cWriteLoop, i2c_wait_flag, h0]
      rw [hfl, ih (i + 1)]
      have hiff : (∀ k, k < n → hw.txeDelay (i + 1 + k) < waitBudget t) ↔
          (∀ k, k < n + 1 → hw.txeDelay (i + k) < waitBudget t) := by
        constructor
        · intro hall k hk
          cases k with
          | zero => simpa using h0
          | succ m =>
            have hm := hall m (by omega)
            rw [show i + (m + 1) = i + 1 + m by omega]
            exact hm
        · intro hall k hk
          have hm := hall (k + 1) (by omega)
          rw [show i + 1 + k = i + (k + 1) by omega]
          exact hm
      rw [if_congr hiff rfl rfl]
    · have hfl : i2cWriteLoop hw t i (n + 1) = Status.timeout := by
        simp [i2cWriteLoop, i2c_wait_flag, h0]
      rw [hfl]
      have hneg : ¬ (∀ k, k < n + 1 → hw.txeDelay (i + k) < waitBudget t) := by
        intro hall
        exact h0 (by simpa using hall 0 (by omega))
      rw [if_neg hneg]

lemma i2cReadLoop_spec (hw : I2cHw) (t len : Nat) :
    ∀ (fuel i : Nat) (acc : List Nat) (stops acks : Nat),
      i + fuel = len → 1 ≤ len →
      ((i2cReadLoop hw t len i fuel acc stops acks).2.2.1 =
        stops +
          (if i ≤ len - 1 ∧ (∀ k, i ≤ k → k < len - 1 → hw.rxneDelay k < waitBudget t)
           then 1 else 0)) ∧
      ((i2cReadLoop hw t len i fuel acc stops acks).2.2.2 =
        acks +
          (if i ≤ len - 1 ∧ (∀ k, i ≤ k → k < len - 1 → hw.rxneDelay k < waitBudget t)
           then 1 else 0)) ∧
      ((i2cReadLoop hw t len i fuel acc stops acks).1 =
        (if ∀ k, i ≤ k → k < len → hw.rxneDelay k < waitBudget t then Status.ok
         else Status.timeout)) := by
  intro fuel
  induction fuel with
  | zero =>
    intro i acc stops acks hlen h1
    have hc : ¬ (i ≤ len - 1 ∧ ∀ k, i ≤ k → k < len - 1 → hw.rxneDelay k < waitBudget t) := by
      rintro ⟨hle, -⟩
      omega
    have hs : ∀ k, i ≤ k → k < len → hw.rxneDelay k < waitBudget t := by
      intro k hk1 hk2
      omega
    refine ⟨?_, ?_, ?_⟩
    · show stops = stops + _
      rw [if_neg hc]
      omega
    · show acks = acks + _
      rw [if_neg hc]
      omega
    · show Status.ok = _
      rw [if_pos hs]
  | succ n ih =>
    intro i acc stops acks hlen h1
    have hi : i < len := by omega
    have hstep : i2cReadLoop hw t len i (n + 1) acc stops acks =
        (match i2c_wait_flag (hw.rxneDelay i) t with
         | Status.ok =>
             i2cReadLoop hw t len (i + 1) n (acc ++ [hw.rxData i % 256])
               (if i = len - 1 then stops + 1 else stops)
               (if i = len - 1 then acks + 1 else acks)
         | r => (r, acc, if i = len - 1 then stops + 1 else stops,
                 if i = len - 1 then acks + 1 else acks)) := rfl
    by_cases h0 : hw.rxneDelay i < waitBudget t
    · have hred : i2cReadLoop hw t len i (n + 1) acc stops acks =
          i2cReadLoop hw t len (i + 1) n (acc ++ [hw.rxData i % 256])
            (if i = len - 1 then stops + 1 else stops)
            (if i = len - 1 then acks + 1 else acks) := by
        rw [hstep]
        simp [i2c_wait_flag, h0]
      obtain ⟨ihs, iha, ihr⟩ :=
        ih (i + 1) (acc ++ [hw.rxData i % 256])
          (if i = len - 1 then stops + 1 else stops)
          (if i = len - 1 then acks + 1 else acks) (by omega) h1
      have hcnt : ∀ c : Nat,
          ((if i = len - 1 then c + 1 else c) +
            (if i + 1 ≤ len - 1 ∧
                (∀ k, i + 1 ≤ k → k < len - 1 → hw.rxneDelay k < waitBudget t)
             then 1 else 0)) =
          c + (if i ≤ len - 1 ∧ (∀ k, i ≤ k → k < len - 1 → hw.rxneDelay k < waitBudget t)
               then 1 else 0) := by
        intro c
        by_cases hlast : i = len - 1
        · have hc1 : ¬ (i + 1 ≤ len - 1 ∧
              (∀ k, i + 1 ≤ k → k < len - 1 → hw.rxneDelay k < waitBudget t)) := by
            rintro ⟨hle, -⟩
            omega
          have hc2 : i ≤ len - 1 ∧
              (∀ k, i ≤ k → k < len - 1 → hw.rxneDelay k < waitBudget t) := by
            refine ⟨by omega, fun k hk1 hk2 => ?_⟩
            omega
          rw [if_pos hlast, if_neg hc1, if_pos hc2]
        · have hiff : (i + 1 ≤ len - 1 ∧
              (∀ k, i + 1 ≤ k → k < len - 1 → hw.rxneDelay k < waitBudget t)) ↔
              (i ≤ len - 1 ∧ (∀ k, i ≤ k → k < len - 1 → hw.rxneDelay k < waitBudget t)) := by
            constructor
            · rintro ⟨hle, hall⟩
              refine ⟨by omega, fun k hk1 hk2 => ?_⟩
              rcases Nat.eq_or_lt_of_le hk1 with heq | hlt
              · rw [← heq]
                exact h0
              · exact hall k (by omega) hk2
            · rintro ⟨hle, hall⟩
              exact ⟨by omega, fun k hk1 hk2 => hall k (by omega) hk2⟩
          rw [if_neg hlast, if_congr hiff rfl rfl]
      have hstat : (if ∀ k, i + 1 ≤ k → k < len → hw.rxneDelay k < waitBudget t
            then Status.ok else Status.timeout) =
          (if ∀ k, i ≤ k → k < len → hw.rxneDelay k < waitBudget t
           then Status.ok else Status.timeout) := by
        have hiff : (∀ k, i + 1 ≤ k → k < len → hw.rxneDelay k < waitBudget t) ↔
            (∀ k, i ≤ k → k < len → hw.rxneDelay k < waitBudget t) := by
          constructor
          · intro hall k hk1 hk2
            rcases Nat.eq_or_lt_of_le hk1 with heq | hlt
            · rw [← heq]
              exact h0
            · exact hall k (by omega) hk2
          · intro hall k hk1 hk2
            exact hall k (by omega) hk2
        rw [if_congr hiff rfl rfl]
      refine ⟨?_, ?_, ?_⟩
      · rw [hred, ihs, hcnt stops]
      · rw [hred, iha, hcnt acks]
      · rw [hred, ihr, hstat]
    · have hred : i2cReadLoop hw t len i (n + 1) acc stops acks =
          (Status.timeout, acc, if i = len - 1 then stops + 1 else stops,
           if i = len - 1 then acks + 1 else acks) := by
        rw [hstep]
        simp [i2c_wait_flag, h0]
      have hcnt : ∀ c : Nat,
          (if i = len - 1 then c + 1 else c) =
          c + (if i ≤ len - 1 ∧ (∀ k, i ≤ k → k < len - 1 → hw.rxneDelay k < waitBudget t)
               then 1 else 0) := by
        intro c
        by_cases hlast : i = len - 1
        · have hc2 : i ≤ len - 1 ∧
              (∀ k, i ≤ k → k < len - 1 → hw.rxneDelay k < waitBudget t) := by
            refine ⟨by omega, fun k hk1 hk2 => ?_⟩
            omega
          rw [if_pos hlast, if_pos hc2]
        · have hc1 : ¬ (i ≤ len - 1 ∧
              (∀ k, i ≤ k → k < len - 1 → hw.rxneDelay k < waitBudget t)) := by
            rintro ⟨hle, hall⟩
            exact h0 (hall i (by omega) (by omega))
          rw [if_neg hlast, if_neg hc1]
          omega
      have hs : ¬ (∀ k, i ≤ k → k < len → hw.rxneDelay k < waitBudget t) := by
        intro hall
        exact h0 (hall i (by omega) hi)
      refine ⟨?_, ?_, ?_⟩
      · rw [hred, hcnt stops]
      · rw [hred, hcnt acks]
      · rw [hred, if_neg hs]

lemma i2cWriteStatus_spec (hw : I2cHw) (len timeout_ms : Nat) :
    i2cWriteStatus hw len timeout_ms =
      (if hw.sbDelay < waitBudget timeout_ms ∧ hw.addrDelay < waitBudget timeout_ms ∧
          (∀ k, k < len → hw.txeDelay k < waitBudget timeout_ms) ∧
          hw.btfDelay < waitBudget timeout_ms
       then Status.ok else Status.timeout) := by
  by_cases hsb : hw.sbDelay < waitBudget timeout_ms
  · by_cases haddr : hw.addrDelay < waitBudget timeout_ms
    · have hsa : i2c_send_address hw timeout_ms = Status.ok := by
        simp [i2c_send_address, i2c_wait_flag, hsb, haddr]
      have hloop := i2cWriteLoop_spec hw timeout_ms len 0
      simp only [Nat.zero_add] at hloop
      by_cases htxe : ∀ k, k < len → hw.txeDelay k < waitBudget timeout_ms
      · rw [if_pos htxe] at hloop
        by_cases hbtf : hw.btfDelay < waitBudget timeout_ms
        · rw [if_pos ⟨hsb, haddr, htxe, hbtf⟩]
          simp only [i2cWriteStatus]
          rw [hsa, hloop]
          simp [i2c_wait_flag, hbtf]
        · rw [if_neg (by tauto)]
          simp only [i2cWriteStatus]
          rw [hsa, hloop]
          simp [i2c_wait_flag, hbtf]
      · rw [if_neg htxe] at hloop
        rw [if_neg (by tauto)]
        simp only [i2cWriteStatus]
        rw [hsa, hloop]
    · have hsa : i2c_send_address hw timeout_ms = Status.timeout := by
        simp [i2c_send_address, i2c_wait_flag, hsb, haddr]
      rw [if_neg (by tauto)]
      simp only [i2cWriteStatus]
      rw [hsa]
  · have hsa : i2c_send_address hw timeout_ms = Status.timeout := by
      simp [i2c_send_address, i2c_wait_flag, hsb]
    rw [if_neg (by tauto)]
    simp only [i2cWriteStatus]
    rw [hsa]

lemma i2c_write_blocking_busy_eq (s : I2cDriverState) (inst dev_addr len timeout_ms : Nat)
    (dw : List Nat) (hw : I2cHw)
    (hinst : inst < 2) (hinit : (i2cHandleOf s inst).initialized = true) (hlen : 1 ≤ len)
    (hbus : waitBudget timeout_ms ≤ hw.busBusyPolls) :
    i2c_write_blocking s inst dev_addr (Option.some dw) len timeout_ms hw =
      ⟨Status.busy,
       setI2cHandle s inst { i2cHandleOf s inst with state := I2cState.error }, [], 0, 0⟩ := by
  simp only [i2c_write_blocking]
  rw [if_neg (by simp : ¬ (Option.some dw = Option.none)), if_neg (by omega : ¬ 2 ≤ inst),
      if_neg (by simp [hinit]), if_neg (by omega : ¬ len = 0), if_pos hbus]

lemma i2c_write_blocking_run_eq (s : I2cDriverState) (inst dev_addr len timeout_ms : Nat)
    (dw : List Nat) (hw : I2cHw)
    (hinst : inst < 2) (hinit : (i2cHandleOf s inst).initialized = true) (hlen : 1 ≤ len)
    (hbus : hw.busBusyPolls < waitBudget timeout_ms) :
    i2c_write_blocking s inst dev_addr (Option.some dw) len timeout_ms hw =
      ⟨i2cWriteStatus hw len timeout_ms,
       setI2cHandle s inst
         { i2cHandleOf s inst with
           state := if i2cWriteStatus hw len timeout_ms = Status.ok then I2cState.idle
                    else I2cState.error },
       [], 1, 0⟩ := by
  simp only [i2c_write_blocking]
  rw [if_neg (by simp : ¬ (Option.some dw = Option.none)), if_neg (by omega : ¬ 2 ≤ inst),
      if_neg (by simp [hinit]), if_neg (by omega : ¬ len = 0), if_neg (by omega)]

lemma i2c_read_blocking_run_eq (s : I2cDriverState) (inst dev_addr len timeout_ms : Nat)
    (dp : Nat) (hw : I2cHw)
    (hinst : inst < 2) (hinit : (i2cHandleOf s inst).initialized = true) (hlen : 1 ≤ len)
    (hsb : hw.sbDelay < waitBudget timeout_ms)
    (haddr : hw.addrDelay < waitBudget timeout_ms) :
    i2c_read_blocking s inst dev_addr (Option.some dp) len timeout_ms hw =
      ⟨(i2cReadLoop hw timeout_ms len 0 len [] 0 0).1,
       setI2cHandle s inst
         { i2cHandleOf s inst with
           state := if (i2cReadLoop hw timeout_ms len 0 len [] 0 0).1 = Status.ok
                    then I2cState.idle else I2cState.error },
       (i2cReadLoop hw timeout_ms len 0 len [] 0 0).2.1,
       (i2cReadLoop hw timeout_ms len 0 len [] 0 0).2.2.1,
       (i2cReadLoop hw timeout_ms len 0 len [] 0 0).2.2.2⟩ := by
  have hsa : i2c_send_address hw timeout_ms = Status.ok := by
    simp [i2c_send_address, i2c_wait_flag, hsb, haddr]
  simp only [i2c_read_blocking]
  rw [if_neg (by simp : ¬ (Option.some dp = Option.none)), if_neg (by omega : ¬ 2 ≤ inst),
      if_neg (by simp [hinit]), if_neg (by omega : ¬ len = 0), hsa]

lemma i2c_read_blocking_addr_fail_eq (s : I2cDriverState) (inst dev_addr len timeout_ms : Nat)
    (dp : Nat) (hw : I2cHw)
    (hinst : inst < 2) (hinit : (i2cHandleOf s inst).initialized = true) (hlen : 1 ≤ len)
    (hna : ¬ (hw.sbDelay < waitBudget timeout_ms ∧ hw.addrDelay < waitBudget timeout_ms)) :
    i2c_read_blocking s inst dev_addr (Option.some dp) len timeout_ms hw =
      ⟨Status.timeout,
       setI2cHandle s inst { i2cHandleOf s inst with state := I2cState.error }, [], 1, 0⟩ := by
  have hsa : i2c_send_address hw timeout_ms = Status.timeout := by
    by_cases hsb : hw.sbDelay < waitBudget timeout_ms
    · have haddr : ¬ hw.addrDelay < waitBudget timeout_ms := fun hx => hna ⟨hsb, hx⟩
      simp [i2c_send_address, i2c_wait_flag, hsb, haddr]
    · simp [i2c_send_address, i2c_wait_flag, hsb]
  simp only [i2c_read_blocking]
  rw [if_neg (by simp : ¬ (Option.some dp = Option.none)), if_neg (by omega : ¬ 2 ≤ inst),
      if_neg (by simp [hinit]), if_neg (by omega : ¬ len = 0), hsa]

/-! Claim theorems and counterexamples. -/

/-- C7: gic_enable_irq and gic_disable_irq reject line numbers at or above
256 with invalid-parameter and touch no register; otherwise they set
(respectively clear) exactly the enable bit of that line, through a single
write of 1 << (line mod 32) to word line / 32 of the set-enable
(clear-enable) bank, followed by a data synchronization barrier. -/
theorem gic_enable_disable_exact_bit (st : GicSt) (line : Nat) :
    (gic_enable_irq st line).1 =
      (if MAX_IRQ_NUM ≤ line then Status.invalidParam else Status.ok) ∧
    (gic_enable_irq st line).2.1.enabled =
      (fun l => if line < MAX_IRQ_NUM ∧ l = line then true else st.enabled l) ∧
    (gic_enable_irq st line).2.2 =
      (if MAX_IRQ_NUM ≤ line then []
       else [GicAction.isenabler (line / 32) (1 <<< (line % 32)), GicAction.dsbAct]) ∧
    (gic_disable_irq st line).1 =
      (if MAX_IRQ_NUM ≤ line then Status.invalidParam else Status.ok) ∧
    (gic_disable_irq st line).2.1.enabled =
      (fun l => if line < MAX_IRQ_NUM ∧ l = line then false else st.enabled l) ∧
    (gic_disable_irq st line).2.2 =
      (if MAX_IRQ_NUM ≤ line then []
       else [GicAction.icenabler (line / 32) (1 <<< (line % 32)), GicAction.dsbAct]) := by
  by_cases hl : MAX_IRQ_NUM ≤ line
  · have henabled : ∀ l : Nat, ¬ (line < MAX_IRQ_NUM ∧ l = line) := by
      rintro l ⟨h1, -⟩
      omega
    refine ⟨?_, ?_, ?_, ?_, ?_, ?_⟩
    · simp [gic_enable_irq, hl]
    · funext l
      simp [gic_enable_irq, hl, henabled l]
    · simp [gic_enable_irq, hl]
    · simp [gic_disable_irq, hl]
    · funext l
      simp [gic_disable_irq, hl, henabled l]
    · simp [gic_disable_irq, hl]
  · have hl2 : line < MAX_IRQ_NUM := by omega
    have hiff : ∀ l : Nat,
        (l / 32 = line / 32 ∧ Nat.testBit (1 <<< (line % 32)) (l % 32)) ↔
        (line < MAX_IRQ_NUM ∧ l = line) := by
      intro l
      rw [testBit_one_shiftLeft]
      constructor
      · rintro ⟨hdiv, hbit⟩
        have hmod : line % 32 = l % 32 := by
          simpa using hbit
        exact ⟨hl2, by omega⟩
      · rintro ⟨-, rfl⟩
        exact ⟨rfl, by simp⟩
    refine ⟨?_, ?_, ?_, ?_, ?_, ?_⟩
    · simp [gic_enable_irq, hl]
    · funext l
      simp only [gic_enable_irq, if_neg hl, List.foldl, gicApply]
      by_cases hc : l / 32 = line / 32 ∧ Nat.testBit (1 <<< (line % 32)) (l % 32)
      · rw [if_pos hc, if_pos ((hiff l).mp hc)]
      · rw [if_neg hc, if_neg (fun hx => hc ((hiff l).mpr hx))]
    · simp [gic_enable_irq, hl]
    · simp [gic_disable_irq, hl]
    · funext l
      simp only [gic_disable_irq, if_neg hl, List.foldl, gicApply]
      by_cases hc : l / 32 = line / 32 ∧ Nat.testBit (1 <<< (line % 32)) (l % 32)
      · rw [if_pos hc, if_pos ((hiff l).mp hc)]
      · rw [if_neg hc, if_neg (fun hx => hc ((hiff l).mpr hx))]
    · simp [gic_disable_irq, hl]

/-- C8: ble_read_rx_data clamps the hardware-reported receive length to the
244-byte maximum payload before copying, so rx_len never exceeds 244 and
every index written into the staging buffer is below 244. -/
theorem ble_rx_len_clamped (h : BleHandle) (hwRxLen : Nat) (rxData : Nat → Nat) :
    (ble_read_rx_data h hwRxLen rxData).1.rx_len = min hwRxLen BLE_MAX_PAYLOAD_SIZE ∧
    (ble_read_rx_data h hwRxLen rxData).1.rx_len ≤ BLE_MAX_PAYLOAD_SIZE ∧
    (∀ i ∈ (ble_read_rx_data h hwRxLen rxData).2, i < BLE_MAX_PAYLOAD_SIZE) := by
  have hrl : (ble_read_rx_data h hwRxLen rxData).1.rx_len =
      (if BLE_MAX_PAYLOAD_SIZE < hwRxLen then BLE_MAX_PAYLOAD_SIZE else hwRxLen) := rfl
  have hmem : (ble_read_rx_data h hwRxLen rxData).2 =
      List.range (if BLE_MAX_PAYLOAD_SIZE < hwRxLen then BLE_MAX_PAYLOAD_SIZE else hwRxLen) :=
    rfl
  refine ⟨?_, ?_, ?_⟩
  · rw [hrl, Nat.min_def]
    simp only [BLE_MAX_PAYLOAD_SIZE]
    split <;> split <;> omega
  · rw [hrl]
    simp only [BLE_MAX_PAYLOAD_SIZE]
    split <;> omega
  · intro i hi
    rw [hmem, List.mem_range] at hi
    simp only [BLE_MAX_PAYLOAD_SIZE] at hi ⊢
    split at hi <;> omega

/-- C9: ble_irq_handler applies link-state transitions without consulting
the prior state: the trace of state assignments depends only on the flag
snapshot (Connected whenever the connected flag is set, Idle whenever the
disconnected flag is set, Error for the error flag, in that order), and the
resulting state is determined by the flags alone except when no
state-changing flag is set. -/
theorem ble_irq_transitions_unguarded (h : BleHandle) (flags : BleIntFlags)
    (hwRxLen : Nat) (rxData : Nat → Nat) :
    (ble_irq_handler h flags hwRxLen rxData).2 =
      ((if flags.connected then [BleState.connected] else []) ++
       (if flags.disconnected then [BleState.idle] else []) ++
       (if flags.error then [BleState.error] else [])) ∧
    (ble_irq_handler h flags hwRxLen rxData).1.state =
      (if flags.error then BleState.error
       else if flags.disconnected then BleState.idle
       else if flags.connected then BleState.connected
       else h.state) := by
  obtain ⟨c, d, r, t, e⟩ := flags
  cases c <;> cases d <;> cases r <;> cases t <;> cases e <;>
    simp [ble_irq_handler]

/-- C10: for a valid instance (0 or 1), i2c_deinit returns OK and resets
the handle to Idle with initialized false, whatever the prior handle state;
it never returns NotReady or Busy. -/
theorem i2c_deinit_forces_idle (s : I2cDriverState) (inst : Nat) :
    (i2c_deinit s inst).1 =
      (if 2 ≤ inst then Status.invalidParam else Status.ok) ∧
    (i2cHandleOf (i2c_deinit s inst).2 inst).state =
      (if 2 ≤ inst then (i2cHandleOf s inst).state else I2cState.idle) ∧
    (i2cHandleOf (i2c_deinit s inst).2 inst).initialized =
      (if 2 ≤ inst then (i2cHandleOf s inst).initialized else false) ∧
    (i2c_deinit s inst).1 ≠ Status.busy ∧
    (i2c_deinit s inst).1 ≠ Status.notReady := by
  by_cases h2 : 2 ≤ inst <;> simp [i2c_deinit, h2]

/-- Counterexample to C1 as stated: a blocking write issued on instance 0
while its state is BUSY_RX is not rejected with Busy; it runs the transfer,
returns OK and overwrites the state. -/
theorem c1_counterexample :
    (i2c_write_blocking sBusyRx 0 72 (Option.some [1]) 1 10 hwFast).status = Status.ok ∧
    (i2c_write_blocking sBusyRx 0 72 (Option.some [1]) 1 10 hwFast).status ≠ Status.busy ∧
    (i2cHandleOf (i2c_write_blocking sBusyRx 0 72 (Option.some [1]) 1 10 hwFast).driver 0).state
      = I2cState.idle := by
  decide

/-- Counterexample to C2 as stated: a complete async read of length 1
(START, ADDR, one RXNE interrupt) performs one ACK-clear but zero STOP
writes, although it completes with success. -/
theorem c2_counterexample :
    (i2c_irq_handler
      (i2c_irq_handler
        (i2c_irq_handler
          (asyncStateOf (i2c_read_async sGood 0 80 (Option.some 1) 1 true).2 0)
          sr1Sb 0)
        sr1Addr 0)
      sr1Rxne 55).stops = 0 ∧
    (i2c_irq_handler
      (i2c_irq_handler
        (i2c_irq_handler
          (asyncStateOf (i2c_read_async sGood 0 80 (Option.some 1) 1 true).2 0)
          sr1Sb 0)
        sr1Addr 0)
      sr1Rxne 55).ackClears = 1 ∧
    (i2c_irq_handler
      (i2c_irq_handler
        (i2c_irq_handler
          (asyncStateOf (i2c_read_async sGood 0 80 (Option.some 1) 1 true).2 0)
          sr1Sb 0)
        sr1Addr 0)
      sr1Rxne 55).handle.state = I2cState.idle := by
  decide

/-- Counterexample to C3 as stated: a blocking read of length 2 whose first
RXNE wait times out returns Timeout but never issues STOP, leaving the bus
unreleased while the instance goes to Error. -/
theorem c3_counterexample :
    (i2c_read_blocking sGood 0 80 (Option.some 1) 2 1 hwRxStall).status = Status.timeout ∧
    (i2c_read_blocking sGood 0 80 (Option.some 1) 2 1 hwRxStall).stops = 0 ∧
    (i2cHandleOf (i2c_read_blocking sGood 0 80 (Option.some 1) 2 1 hwRxStall).driver 0).state
      = I2cState.error := by
  decide

/-- Counterexample to C4 as stated: starting from the fresh queue, the
eighth enqueue already fails while only 7 events are queued; a state with 8
queued events is never reached, so enqueue rejects at 7, not 8. -/
theorem c4_counterexample :
    (enqueueTimes emptyBleEvent 8 g_ble_handle).1 =
      [Status.ok, Status.ok, Status.ok, Status.ok, Status.ok, Status.ok, Status.ok,
       Status.error] ∧
    bleQueueCount (enqueueTimes emptyBleEvent 7 g_ble_handle).2 = 7 ∧
    (ble_enqueue_event (enqueueTimes emptyBleEvent 7 g_ble_handle).2 emptyBleEvent).2 =
      (enqueueTimes emptyBleEvent 7 g_ble_handle).2 := by
  decide

/-- Counterexample to C5 as stated: a zero-length async write on an
initialized idle instance is not rejected with invalid-parameter; it is
accepted and transitions the instance to BUSY_TX. -/
theorem c5_counterexample :
    (i2c_write_async sGood 0 80 (Option.some []) 0 true).1 = Status.ok ∧
    (i2c_write_async sGood 0 80 (Option.some []) 0 true).1 ≠ Status.invalidParam ∧
    (i2cHandleOf (i2c_write_async sGood 0 80 (Option.some []) 0 true).2 0).state
      = I2cState.busyTx := by
  decide

/-- C3 (amended): for blocking transfers with valid arguments, in
i2c_write_blocking the exhaustion of the initial bus-free wait yields Busy
(not Timeout), issues no STOP and leaves the instance in Error; once the
bus-free wait succeeds, STOP is issued exactly once, any later wait
exhaustion yields Timeout, and the instance ends Idle exactly on success
and Error otherwise. In i2c_read_blocking an address-phase wait exhaustion
yields Timeout with STOP issued once, while after a successful address
phase STOP is issued exactly once iff every receive wait before index N-1
succeeds - a receive timeout earlier in the data phase issues no STOP -
with Idle on success and Error on any failure. -/
theorem c3_blocking_timeout_discipline
    (s : I2cDriverState) (inst dev_addr len timeout_ms : Nat)
    (dw : List Nat) (dp : Nat) (hw : I2cHw)
    (hinst : inst < 2)
    (hinit : (i2cHandleOf s inst).initialized = true)
    (hlen : 1 ≤ len) :
    (waitBudget timeout_ms ≤ hw.busBusyPolls →
      (i2c_write_blocking s inst dev_addr (Option.some dw) len timeout_ms hw).status =
        Status.busy ∧
      (i2c_write_blocking s inst dev_addr (Option.some dw) len timeout_ms hw).stops = 0 ∧
      (i2cHandleOf (i2c_write_blocking s inst dev_addr (Option.some dw) len timeout_ms
          hw).driver inst).state = I2cState.error) ∧
    (hw.busBusyPolls < waitBudget timeout_ms →
      (i2c_write_blocking s inst dev_addr (Option.some dw) len timeout_ms hw).stops = 1 ∧
      (i2c_write_blocking s inst dev_addr (Option.some dw) len timeout_ms hw).status =
        (if hw.sbDelay < waitBudget timeout_ms ∧ hw.addrDelay < waitBudget timeout_ms ∧
            (∀ k, k < len → hw.txeDelay k < waitBudget timeout_ms) ∧
            hw.btfDelay < waitBudget timeout_ms
         then Status.ok else Status.timeout) ∧
      (i2cHandleOf (i2c_write_blocking s inst dev_addr (Option.some dw) len timeout_ms
          hw).driver inst).state =
        (if hw.sbDelay < waitBudget timeout_ms ∧ hw.addrDelay < waitBudget timeout_ms ∧
            (∀ k, k < len → hw.txeDelay k < waitBudget timeout_ms) ∧
            hw.btfDelay < waitBudget timeout_ms
         then I2cState.idle else I2cState.error)) ∧
    (¬ (hw.sbDelay < waitBudget timeout_ms ∧ hw.addrDelay < waitBudget timeout_ms) →
      (i2c_read_blocking s inst dev_addr (Option.some dp) len timeout_ms hw).status =
        Status.timeout ∧
      (i2c_read_blocking s inst dev_addr (Option.some dp) len timeout_ms hw).stops = 1 ∧
      (i2cHandleOf (i2c_read_blocking s inst dev_addr (Option.some dp) len timeout_ms
          hw).driver inst).state = I2cState.error) ∧
    (hw.sbDelay < waitBudget timeout_ms → hw.addrDelay < waitBudget timeout_ms →
      (i2c_read_blocking s inst dev_addr (Option.some dp) len timeout_ms hw).stops =
        (if ∀ k, k < len - 1 → hw.rxneDelay k < waitBudget timeout_ms then 1 else 0) ∧
      (i2c_read_blocking s inst dev_addr (Option.some dp) len timeout_ms hw).status =
        (if ∀ k, k < len → hw.rxneDelay k < waitBudget timeout_ms then Status.ok
         else Status.timeout) ∧
      (i2cHandleOf (i2c_read_blocking s inst dev_addr (Option.some dp) len timeout_ms
          hw).driver inst).state =
        (if ∀ k, k < len → hw.rxneDelay k < waitBudget timeout_ms then I2cState.idle
         else I2cState.error)) := by
  refine ⟨?_, ?_, ?_, ?_⟩
  · intro hbus
    rw [i2c_write_blocking_busy_eq s inst dev_addr len timeout_ms dw hw hinst hinit hlen hbus]
    refine ⟨rfl, rfl, ?_⟩
    simp
  · intro hbus
    rw [i2c_write_blocking_run_eq s inst dev_addr len timeout_ms dw hw hinst hinit hlen hbus]
    refine ⟨rfl, ?_, ?_⟩
    · exact i2cWriteStatus_spec hw len timeout_ms
    · rw [i2cHandleOf_setI2cHandle]
      show (if i2cWriteStatus hw len timeout_ms = Status.ok then I2cState.idle
            else I2cState.error) = _
      rw [i2cWriteStatus_spec hw len timeout_ms]
      by_cases hC : hw.sbDelay < waitBudget timeout_ms ∧ hw.addrDelay < waitBudget timeout_ms ∧
          (∀ k, k < len → hw.txeDelay k < waitBudget timeout_ms) ∧
          hw.btfDelay < waitBudget timeout_ms
      · rw [if_pos hC, if_pos hC]
        simp
      · rw [if_neg hC, if_neg hC]
        simp
  · intro hna
    rw [i2c_read_blocking_addr_fail_eq s inst dev_addr len timeout_ms dp hw hinst hinit hlen hna]
    refine ⟨rfl, rfl, ?_⟩
    simp
  · intro hsb haddr
    rw [i2c_read_blocking_run_eq s inst dev_addr len timeout_ms dp hw hinst hinit hlen hsb haddr]
    obtain ⟨hst, hak, hrs⟩ := i2cReadLoop_spec hw timeout_ms len len 0 [] 0 0 (by omega) hlen
    have hiff1 : (0 ≤ len - 1 ∧
        (∀ k, 0 ≤ k → k < len - 1 → hw.rxneDelay k < waitBudget timeout_ms)) ↔
        (∀ k, k < len - 1 → hw.rxneDelay k < waitBudget timeout_ms) := by
      constructor
      · rintro ⟨-, hall⟩ k hk
        exact hall k (Nat.zero_le k) hk
      · intro hall
        exact ⟨Nat.zero_le _, fun k _ hk => hall k hk⟩
    have hiff2 : (∀ k, 0 ≤ k → k < len → hw.rxneDelay k < waitBudget timeout_ms) ↔
        (∀ k, k < len → hw.rxneDelay k < waitBudget timeout_ms) := by
      constructor
      · intro hall k hk
        exact hall k (Nat.zero_le k) hk
      · intro hall k _ hk
        exact hall k hk
    refine ⟨?_, ?_, ?_⟩
    · show (i2cReadLoop hw timeout_ms len 0 len [] 0 0).2.2.1 = _
      rw [hst, if_congr hiff1 rfl rfl]
      omega
    · show (i2cReadLoop hw timeout_ms len 0 len [] 0 0).1 = _
      rw [hrs, if_congr hiff2 rfl rfl]
    · rw [i2cHandleOf_setI2cHandle]
      show (if (i2cReadLoop hw timeout_ms len 0 len [] 0 0).1 = Status.ok then I2cState.idle
            else I2cState.error) = _
      rw [hrs, if_congr hiff2 rfl rfl]
      by_cases hC : ∀ k, k < len → hw.rxneDelay k < waitBudget timeout_ms
      · rw [if_pos hC, if_pos hC]
        simp
      · rw [if_neg hC, if_neg hC]
        simp

lemma i2c_irq_handler_sb (m : AsyncM) (dr : Nat) :
    i2c_irq_handler m sr1Sb dr = m := by
  simp [i2c_irq_handler, sr1Sb]

lemma i2c_irq_handler_addr (m : AsyncM) (dr : Nat) :
    i2c_irq_handler m sr1Addr dr =
      (if m.handle.state = I2cState.busyRx ∧ m.handle.buffer_len = 1 then
         { m with ackClears := m.ackClears + 1 }
       else m) := by
  simp [i2c_irq_handler, sr1Addr]

lemma i2c_irq_handler_rxne (m : AsyncM) (dr : Nat)
    (hstate : m.handle.state = I2cState.busyRx) :
    i2c_irq_handler m sr1Rxne dr =
      (let h1 := { m.handle with buffer_idx := m.handle.buffer_idx + 1 }
       let m1 := { m with handle := h1, rxWrites := m.rxWrites ++ [dr % 256] }
       let m2 := if h1.buffer_idx = (h1.buffer_len + (U32 - 1)) % U32 then
           { m1 with ackClears := m1.ackClears + 1, stops := m1.stops + 1 }
         else m1
       if h1.buffer_len ≤ h1.buffer_idx then
         { m2 with handle := { m2.handle with state := I2cState.idle },
                   callbacks := if m.handle.callback then m2.callbacks ++ [Status.ok]
                                else m2.callbacks }
       else m2) := by
  simp [i2c_irq_handler, sr1Rxne, hstate]

lemma runRxEvents_read_spec (drv : Nat → Nat) (n : Nat) (m : AsyncM)
    (hn : 1 ≤ n) (hU : n < U32)
    (hstate : m.handle.state = I2cState.busyRx)
    (hlen : m.handle.buffer_len = n)
    (hidx : m.handle.buffer_idx = 0) :
    ∀ j, j ≤ n →
      ((runRxEvents drv m j).handle.state =
        (if j = n then I2cState.idle else I2cState.busyRx)) ∧
      ((runRxEvents drv m j).handle.buffer_len = n) ∧
      ((runRxEvents drv m j).handle.buffer_idx = j) ∧
      ((runRxEvents drv m j).stops = m.stops + (if 2 ≤ n ∧ n - 1 ≤ j then 1 else 0)) ∧
      ((runRxEvents drv m j).ackClears =
        m.ackClears + (if 2 ≤ n ∧ n - 1 ≤ j then 1 else 0)) := by
  have hU2 : n < 4294967296 := hU
  have hmod : (n + (U32 - 1)) % U32 = n - 1 := by
    simp only [U32]
    omega
  intro j
  induction j with
  | zero =>
    intro hj
    have hjn : ¬ (0 = n) := by omega
    have hc : ¬ (2 ≤ n ∧ n - 1 ≤ 0) := by omega
    simp only [runRxEvents]
    refine ⟨?_, hlen, hidx, ?_, ?_⟩
    · rw [if_neg hjn]
      exact hstate
    · rw [if_neg hc]
      omega
    · rw [if_neg hc]
      omega
  | succ j ih =>
    intro hj
    obtain ⟨ihst, ihlen, ihidx, ihstops, ihacks⟩ := ih (by omega)
    have hjn : ¬ (j = n) := by omega
    have hst2 : (runRxEvents drv m j).handle.state = I2cState.busyRx := by
      rw [ihst, if_neg hjn]
    have hstep : runRxEvents drv m (j + 1) =
        i2c_irq_handler (runRxEvents drv m j) sr1Rxne (drv j) := rfl
    rw [hstep, i2c_irq_handler_rxne _ _ hst2]
    simp only [ihidx, ihlen, hmod]
    by_cases hdone : n ≤ j + 1
    · by_cases hlast : j + 1 = n - 1
      · omega
      · have hjn1 : j + 1 = n := by omega
        simp only [if_neg hlast, if_pos hdone]
        refine ⟨?_, ?_, ?_, ?_, ?_⟩
        · show I2cState.idle = _
          rw [if_pos hjn1]
        · trivial
        · trivial
        · show (runRxEvents drv m j).stops = _
          rw [ihstops]
          split_ifs <;> omega
        · show (runRxEvents drv m j).ackClears = _
          rw [ihacks]
          split_ifs <;> omega
    · by_cases hlast : j + 1 = n - 1
      · simp only [if_pos hlast, if_neg hdone]
        refine ⟨?_, ?_, ?_, ?_, ?_⟩
        · show (runRxEvents drv m j).handle.state = _
          rw [hst2, if_neg (by omega : ¬ (j + 1 = n))]
        · trivial
        · trivial
        · show (runRxEvents drv m j).stops + 1 = _
          rw [ihstops]
          split_ifs <;> omega
        · show (runRxEvents drv m j).ackClears + 1 = _
          rw [ihacks]
          split_ifs <;> omega
      · simp only [if_neg hlast, if_neg hdone]
        refine ⟨?_, ?_, ?_, ?_, ?_⟩
        · show (runRxEvents drv m j).handle.state = _
          rw [hst2, if_neg (by omega : ¬ (j + 1 = n))]
        · trivial
        · trivial
        · show (runRxEvents drv m j).stops = _
          rw [ihstops]
          split_ifs <;> omega
        · show (runRxEvents drv m j).ackClears = _
          rw [ihacks]
          split_ifs <;> omega

lemma i2c_read_async_run_eq (s : I2cDriverState) (inst dev_addr n : Nat) (dp : Nat)
    (hinst : inst < 2)
    (hinit : (i2cHandleOf s inst).initialized = true)
    (hidle : (i2cHandleOf s inst).state = I2cState.idle) :
    i2c_read_async s inst dev_addr (Option.some dp) n true =
      (Status.ok,
       setI2cHandle s inst
         { i2cHandleOf s inst with
           rx_buffer := Option.some dp, buffer_len := n, buffer_idx := 0,
           dev_address := dev_addr, callback := true, state := I2cState.busyRx }) := by
  simp only [i2c_read_async]
  rw [if_neg (by simp : ¬ (Option.some dp = Option.none ∨ true = false)),
      if_neg (by omega : ¬ 2 ≤ inst), if_neg (by simp [hinit]),
      if_neg (by simp [hidle])]

/-- C2 (amended): for a successful blocking read of length N the ACK-clear
and the STOP are each issued exactly once, at index N-1, for every N
including 1; after a successful address phase they are issued exactly once
iff every receive wait before index N-1 succeeds, and never before index
N-1. For an async read of length N ≥ 2, after the START and address
interrupts and j RXNE interrupts, exactly one ACK-clear and one STOP have
been issued iff j has reached N-1, and none before; for an async read of
length 1 the ACK-clear is issued exactly once, at the address interrupt,
and no STOP is ever issued. -/
theorem c2_read_ack_stop_discipline
    (s : I2cDriverState) (inst dev_addr len timeout_ms n j : Nat)
    (dp : Nat) (hw : I2cHw) (drv : Nat → Nat)
    (hinst : inst < 2)
    (hinit : (i2cHandleOf s inst).initialized = true)
    (hlen : 1 ≤ len) :
    (hw.sbDelay < waitBudget timeout_ms → hw.addrDelay < waitBudget timeout_ms →
      (i2c_read_blocking s inst dev_addr (Option.some dp) len timeout_ms hw).stops =
        (if ∀ k, k < len - 1 → hw.rxneDelay k < waitBudget timeout_ms then 1 else 0) ∧
      (i2c_read_blocking s inst dev_addr (Option.some dp) len timeout_ms hw).ackClears =
        (i2c_read_blocking s inst dev_addr (Option.some dp) len timeout_ms hw).stops) ∧
    ((i2cHandleOf s inst).state = I2cState.idle → 1 ≤ n → n < U32 → j ≤ n →
      (runRxEvents drv
          (i2c_irq_handler
            (i2c_irq_handler
              (asyncStateOf (i2c_read_async s inst dev_addr (Option.some dp) n true).2 inst)
              sr1Sb 0)
            sr1Addr 0)
          j).stops =
        (if 2 ≤ n ∧ n - 1 ≤ j then 1 else 0) ∧
      (runRxEvents drv
          (i2c_irq_handler
            (i2c_irq_handler
              (asyncStateOf (i2c_read_async s inst dev_addr (Option.some dp) n true).2 inst)
              sr1Sb 0)
            sr1Addr 0)
          j).ackClears =
        (if n = 1 ∨ n - 1 ≤ j then 1 else 0)) := by
  constructor
  · intro hsb haddr
    rw [i2c_read_blocking_run_eq s inst dev_addr len timeout_ms dp hw hinst hinit hlen hsb haddr]
    obtain ⟨hst, hak, -⟩ := i2cReadLoop_spec hw timeout_ms len len 0 [] 0 0 (by omega) hlen
    have hiff1 : (0 ≤ len - 1 ∧
        (∀ k, 0 ≤ k → k < len - 1 → hw.rxneDelay k < waitBudget timeout_ms)) ↔
        (∀ k, k < len - 1 → hw.rxneDelay k < waitBudget timeout_ms) := by
      constructor
      · rintro ⟨-, hall⟩ k hk
        exact hall k (Nat.zero_le k) hk
      · intro hall
        exact ⟨Nat.zero_le _, fun k _ hk => hall k hk⟩
    refine ⟨?_, ?_⟩
    · show (i2cReadLoop hw timeout_ms len 0 len [] 0 0).2.2.1 = _
      rw [hst, if_congr hiff1 rfl rfl]
      omega
    · show (i2cReadLoop hw timeout_ms len 0 len [] 0 0).2.2.2 =
        (i2cReadLoop hw timeout_ms len 0 len [] 0 0).2.2.1
      rw [hst, hak]
  · intro hidle hn hU hj
    rw [i2c_read_async_run_eq s inst dev_addr n dp hinst hinit hidle]
    have hm0 : (asyncStateOf
        (Status.ok,
         setI2cHandle s inst
           { i2cHandleOf s inst with
             rx_buffer := Option.some dp, buffer_len := n, buffer_idx := 0,
             dev_address := dev_addr, callback := true, state := I2cState.busyRx }).2
        inst) =
        ⟨{ i2cHandleOf s inst with
             rx_buffer := Option.some dp, buffer_len := n, buffer_idx := 0,
             dev_address := dev_addr, callback := true, state := I2cState.busyRx },
         0, 0, [], []⟩ := by
      simp [asyncStateOf]
    rw [hm0, i2c_irq_handler_sb]
    rw [i2c_irq_handler_addr]
    by_cases hn1 : n = 1
    · have hcond : (⟨{ i2cHandleOf s inst with
             rx_buffer := Option.some dp, buffer_len := n, buffer_idx := 0,
             dev_address := dev_addr, callback := true, state := I2cState.busyRx },
           0, 0, [], []⟩ : AsyncM).handle.state = I2cState.busyRx ∧
          (⟨{ i2cHandleOf s inst with
             rx_buffer := Option.some dp, buffer_len := n, buffer_idx := 0,
             dev_address := dev_addr, callback := true, state := I2cState.busyRx },
           0, 0, [], []⟩ : AsyncM).handle.buffer_len = 1 := ⟨rfl, hn1⟩
      rw [if_pos hcond]
      obtain ⟨-, -, -, hstops, hacks⟩ :=
        runRxEvents_read_spec drv n
          { handle := { i2cHandleOf s inst with
              rx_buffer := Option.some dp, buffer_len := n, buffer_idx := 0,
              dev_address := dev_addr, callback := true, state := I2cState.busyRx },
            stops := 0, ackClears := 0 + 1, rxWrites := [], callbacks := [] }
          hn hU rfl rfl rfl j hj
      refine ⟨?_, ?_⟩
      · rw [hstops]
        dsimp only
        split_ifs <;> omega
      · rw [hacks]
        have hor : n = 1 ∨ n - 1 ≤ j := Or.inl hn1
        rw [if_pos hor]
        dsimp only
        split_ifs <;> omega
    · have hcond : ¬ ((⟨{ i2cHandleOf s inst with
             rx_buffer := Option.some dp, buffer_len := n, buffer_idx := 0,
             dev_address := dev_addr, callback := true, state := I2cState.busyRx },
           0, 0, [], []⟩ : AsyncM).handle.state = I2cState.busyRx ∧
          (⟨{ i2cHandleOf s inst with
             rx_buffer := Option.some dp, buffer_len := n, buffer_idx := 0,
             dev_address := dev_addr, callback := true, state := I2cState.busyRx },
           0, 0, [], []⟩ : AsyncM).handle.buffer_len = 1) := by
        rintro ⟨-, hb⟩
        exact hn1 hb
      rw [if_neg hcond]
      obtain ⟨-, -, -, hstops, hacks⟩ :=
        runRxEvents_read_spec drv n
          { handle := { i2cHandleOf s inst with
              rx_buffer := Option.some dp, buffer_len := n, buffer_idx := 0,
              dev_address := dev_addr, callback := true, state := I2cState.busyRx },
            stops := 0, ackClears := 0, rxWrites := [], callbacks := [] }
          hn hU rfl rfl rfl j hj
      refine ⟨?_, ?_⟩
      · rw [hstops]
        dsimp only
        split_ifs <;> omega
      · rw [hacks]
        dsimp only
        have hiff : (n = 1 ∨ n - 1 ≤ j) ↔ (2 ≤ n ∧ n - 1 ≤ j) := by
          constructor
          · rintro (h1 | h2)
            · exact absurd h1 hn1
            · exact ⟨by omega, h2⟩
          · rintro ⟨-, h2⟩
            exact Or.inr h2
        rw [if_congr hiff rfl rfl]
        split_ifs <;> omega

/-- C4 (amended): enqueueing into a full queue fails with an explicit error
and leaves the handle (queue contents and indices included) unchanged, and
a full queue holds 7 events - the capacity-8 circular buffer with its
head+1 = tail fullness check can never hold 8; dequeuing from an empty
queue (head = tail) returns no event without modifying the handle. -/
theorem c4_queue_full_and_empty (h : BleHandle) (e : BleEvent)
    (hh : h.evt_queue_head < BLE_EVENT_QUEUE_SIZE)
    (ht : h.evt_queue_tail < BLE_EVENT_QUEUE_SIZE) :
    ((h.evt_queue_head + 1) % BLE_EVENT_QUEUE_SIZE = h.evt_queue_tail →
      ble_enqueue_event h e = (Status.error, h) ∧ bleQueueCount h = 7) ∧
    (h.evt_queue_tail = h.evt_queue_head →
      ble_dequeue_event h = (Option.none, h)) := by
  constructor
  · intro hfull
    constructor
    · simp only [ble_enqueue_event]
      rw [if_pos hfull]
    · simp only [bleQueueCount, BLE_EVENT_QUEUE_SIZE] at hfull ⊢
      omega
  · intro hempty
    simp only [ble_dequeue_event]
    rw [if_neg (by simp [hempty])]

lemma bleDrainLoop_delivers (fuel : Nat) :
    ∀ h : BleHandle, h.callback = true →
      h.evt_queue_head < BLE_EVENT_QUEUE_SIZE →
      h.evt_queue_tail < BLE_EVENT_QUEUE_SIZE →
      bleQueueCount h ≤ fuel →
      (bleDrainLoop fuel h).1 = bleQueueList h := by
  induction fuel with
  | zero =>
    intro h hcb hh ht hcount
    have h0 : bleQueueCount h = 0 := by omega
    simp [bleDrainLoop, bleQueueList, h0]
  | succ n ih =>
    intro h hcb hh ht hcount
    by_cases heq : h.evt_queue_tail = h.evt_queue_head
    · have h0 : bleQueueCount h = 0 := by
        simp only [bleQueueCount, BLE_EVENT_QUEUE_SIZE, heq]
        omega
      have hdq : ble_dequeue_event h = (Option.none, h) := by
        simp only [ble_dequeue_event]
        rw [if_neg (by simp [heq])]
      simp [bleDrainLoop, hdq, bleQueueList, h0]
    · have hh8 : h.evt_queue_head < 8 := hh
      have ht8 : h.evt_queue_tail < 8 := ht
      have hdq : ble_dequeue_event h =
          (Option.some (h.event_queue.getD h.evt_queue_tail emptyBleEvent),
           { h with evt_queue_tail := (h.evt_queue_tail + 1) % BLE_EVENT_QUEUE_SIZE }) := by
        simp only [ble_dequeue_event]
        rw [if_pos heq]
      have hpos : 1 ≤ bleQueueCount h := by
        simp only [bleQueueCount, BLE_EVENT_QUEUE_SIZE]
        omega
      have hcnt1 : bleQueueCount
          { h with evt_queue_tail := (h.evt_queue_tail + 1) % BLE_EVENT_QUEUE_SIZE } =
          bleQueueCount h - 1 := by
        simp only [bleQueueCount, BLE_EVENT_QUEUE_SIZE]
        omega
      have hstep : (bleDrainLoop (n + 1) h).1 =
          h.event_queue.getD h.evt_queue_tail emptyBleEvent ::
            (bleDrainLoop n
              { h with evt_queue_tail := (h.evt_queue_tail + 1) % BLE_EVENT_QUEUE_SIZE }).1 := by
        simp [bleDrainLoop, hdq, hcb]
      rw [hstep,
          ih { h with evt_queue_tail := (h.evt_queue_tail + 1) % BLE_EVENT_QUEUE_SIZE }
            hcb hh (by simp only [BLE_EVENT_QUEUE_SIZE]; omega) (by omega)]
      have hc : bleQueueCount h = bleQueueCount
          { h with evt_queue_tail := (h.evt_queue_tail + 1) % BLE_EVENT_QUEUE_SIZE } + 1 := by
        omega
      simp only [bleQueueList, hc, List.range_succ_eq_map, List.map_cons, List.map_map]
      congr 1
      · show _ = h.event_queue.getD ((h.evt_queue_tail + 0) % BLE_EVENT_QUEUE_SIZE) emptyBleEvent
        rw [Nat.add_zero, Nat.mod_eq_of_lt ht]
      · apply List.map_congr_left
        intro i hi
        simp only [Function.comp]
        congr 1
        simp only [BLE_EVENT_QUEUE_SIZE]
        omega

/-- C6: ble_process delivers the staged receive data (when rx_pending is
set) to the callback before any queued event, then delivers the queued
events in strict FIFO order, one callback invocation per event; in
particular enqueueing A, B, C into the fresh initialized handle and
processing delivers exactly A, B, C in that order. -/
theorem c6_process_staged_then_fifo (h : BleHandle)
    (hcb : h.callback = true)
    (hh : h.evt_queue_head < BLE_EVENT_QUEUE_SIZE)
    (ht : h.evt_queue_tail < BLE_EVENT_QUEUE_SIZE) :
    ((ble_process h).1 =
      (if h.rx_pending then
         [{ type := BleEventType.dataReceived, peer_addr := h.peer_addr,
            data := h.rx_buffer.take h.rx_len, data_len := h.rx_len }]
       else []) ++ bleQueueList h) ∧
    (∀ A B C : BleEvent,
      (ble_process
        (ble_enqueue_event
          ((ble_enqueue_event
            ((ble_enqueue_event { g_ble_handle with callback := true } A).2) B).2) C).2).1 =
        [A, B, C]) := by
  constructor
  · by_cases hrx : h.rx_pending
    · have hps : (ble_process h).1 =
          [{ type := BleEventType.dataReceived, peer_addr := h.peer_addr,
             data := h.rx_buffer.take h.rx_len, data_len := h.rx_len }] ++
          (bleDrainLoop BLE_EVENT_QUEUE_SIZE { h with rx_pending := false }).1 := by
        simp [ble_process, hrx, hcb]
      rw [hps,
          bleDrainLoop_delivers BLE_EVENT_QUEUE_SIZE { h with rx_pending := false }
            hcb hh ht (by simp only [bleQueueCount, BLE_EVENT_QUEUE_SIZE]; omega),
          if_pos hrx]
      rfl
    · have hps : (ble_process h).1 = (bleDrainLoop BLE_EVENT_QUEUE_SIZE h).1 := by
        simp [ble_process, hrx]
      rw [hps,
          bleDrainLoop_delivers BLE_EVENT_QUEUE_SIZE h hcb hh ht
            (by simp only [bleQueueCount, BLE_EVENT_QUEUE_SIZE]; omega),
          if_neg hrx]
      rfl
  · intro A B C
    rfl

/-- C1 (amended): an async transfer request (i2c_write_async or
i2c_read_async) issued with valid arguments while the instance state is not
Idle returns Busy and leaves the whole driver state, hence every transfer
field of the instance, unchanged. The blocking variants perform no
instance-state check at all: their returned status and STOP count are
identical whatever the prior state of the instance, so a blocking call on a
non-Idle instance is not rejected with Busy by a state check and can
overwrite the transfer state. -/
theorem c1_busy_rejection_async_only
    (s : I2cDriverState) (inst dev_addr len timeout_ms : Nat)
    (dw : List Nat) (dp : Nat) (hw : I2cHw) (prior : I2cState)
    (hinst : inst < 2)
    (hinit : (i2cHandleOf s inst).initialized = true) :
    ((i2cHandleOf s inst).state ≠ I2cState.idle →
      i2c_write_async s inst dev_addr (Option.some dw) len true = (Status.busy, s) ∧
      i2c_read_async s inst dev_addr (Option.some dp) len true = (Status.busy, s)) ∧
    ((i2c_write_blocking
        (setI2cHandle s inst { i2cHandleOf s inst with state := prior })
        inst dev_addr (Option.some dw) len timeout_ms hw).status =
      (i2c_write_blocking s inst dev_addr (Option.some dw) len timeout_ms hw).status ∧
     (i2c_write_blocking
        (setI2cHandle s inst { i2cHandleOf s inst with state := prior })
        inst dev_addr (Option.some dw) len timeout_ms hw).stops =
      (i2c_write_blocking s inst dev_addr (Option.some dw) len timeout_ms hw).stops ∧
     (i2c_read_blocking
        (setI2cHandle s inst { i2cHandleOf s inst with state := prior })
        inst dev_addr (Option.some dp) len timeout_ms hw).status =
      (i2c_read_blocking s inst dev_addr (Option.some dp) len timeout_ms hw).status ∧
     (i2c_read_blocking
        (setI2cHandle s inst { i2cHandleOf s inst with state := prior })
        inst dev_addr (Option.some dp) len timeout_ms hw).stops =
      (i2c_read_blocking s inst dev_addr (Option.some dp) len timeout_ms hw).stops) := by
  constructor
  · intro hbusy
    constructor
    · simp only [i2c_write_async]
      rw [if_neg (by simp : ¬ (Option.some dw = Option.none ∨ true = false)),
          if_neg (by omega : ¬ 2 ≤ inst), if_neg (by simp [hinit]), if_pos hbusy]
    · simp only [i2c_read_async]
      rw [if_neg (by simp : ¬ (Option.some dp = Option.none ∨ true = false)),
          if_neg (by omega : ¬ 2 ≤ inst), if_neg (by simp [hinit]), if_pos hbusy]
  · refine ⟨?_, ?_, ?_, ?_⟩
    · simp only [i2c_write_blocking, i2cHandleOf_setI2cHandle]
      split_ifs <;> rfl
    · simp only [i2c_write_blocking, i2cHandleOf_setI2cHandle]
      split_ifs <;> rfl
    · simp only [i2c_read_blocking, i2cHandleOf_setI2cHandle]
      split_ifs <;> cases hsa : i2c_send_address hw timeout_ms <;> rfl
    · simp only [i2c_read_blocking, i2cHandleOf_setI2cHandle]
      split_ifs <;> cases hsa : i2c_send_address hw timeout_ms <;> rfl

/-- C5 (amended): i2c_write_async and i2c_read_async validate a null buffer
or null callback (invalid-parameter), an out-of-range instance
(invalid-parameter) and an uninitialized instance (not-ready) before
mutating any transfer state, exactly like the blocking variants; unlike
the blocking variants they perform no zero-length check, so a zero-length
async request on an initialized idle instance is accepted with OK and
starts a transfer. -/
theorem c5_async_validation_no_zero_len_check
    (s : I2cDriverState) (inst dev_addr len : Nat) (dw : List Nat) (dp : Nat) :
    (i2c_write_async s inst dev_addr Option.none len true = (Status.invalidParam, s)) ∧
    (i2c_read_async s inst dev_addr Option.none len true = (Status.invalidParam, s)) ∧
    (i2c_write_async s inst dev_addr (Option.some dw) len false = (Status.invalidParam, s)) ∧
    (i2c_read_async s inst dev_addr (Option.some dp) len false = (Status.invalidParam, s)) ∧
    (2 ≤ inst →
      i2c_write_async s inst dev_addr (Option.some dw) len true = (Status.invalidParam, s) ∧
      i2c_read_async s inst dev_addr (Option.some dp) len true = (Status.invalidParam, s)) ∧
    ((i2cHandleOf s inst).initialized = false → inst < 2 →
      i2c_write_async s inst dev_addr (Option.some dw) len true = (Status.notReady, s) ∧
      i2c_read_async s inst dev_addr (Option.some dp) len true = (Status.notReady, s)) ∧
    ((i2cHandleOf s inst).initialized = true → (i2cHandleOf s inst).state = I2cState.idle →
      inst < 2 →
      (i2c_write_async s inst dev_addr (Option.some dw) 0 true).1 = Status.ok ∧
      (i2cHandleOf (i2c_write_async s inst dev_addr (Option.some dw) 0 true).2 inst).state =
        I2cState.busyTx ∧
      (i2c_read_async s inst dev_addr (Option.some dp) 0 true).1 = Status.ok ∧
      (i2cHandleOf (i2c_read_async s inst dev_addr (Option.some dp) 0 true).2 inst).state =
        I2cState.busyRx) := by
  refine ⟨?_, ?_, ?_, ?_, ?_, ?_, ?_⟩
  · simp [i2c_write_async]
  · simp [i2c_read_async]
  · simp [i2c_write_async]
  · simp [i2c_read_async]
  · intro h2
    constructor
    · simp only [i2c_write_async]
      rw [if_neg (by simp : ¬ (Option.some dw = Option.none ∨ true = false)), if_pos h2]
    · simp only [i2c_read_async]
      rw [if_neg (by simp : ¬ (Option.some dp = Option.none ∨ true = false)), if_pos h2]
  · intro hni h2
    constructor
    · simp only [i2c_write_async]
      rw [if_neg (by simp : ¬ (Option.some dw = Option.none ∨ true = false)),
          if_neg (by omega : ¬ 2 ≤ inst), if_pos (by simp [hni])]
    · simp only [i2c_read_async]
      rw [if_neg (by simp : ¬ (Option.some dp = Option.none ∨ true = false)),
          if_neg (by omega : ¬ 2 ≤ inst), if_pos (by simp [hni])]
  · intro hinit hidle h2
    have hw0 : i2c_write_async s inst dev_addr (Option.some dw) 0 true =
        (Status.ok,
         setI2cHandle s inst
           { i2cHandleOf s inst with
             tx_buffer := Option.some dw, buffer_len := 0, buffer_idx := 0,
             dev_address := dev_addr, callback := true, state := I2cState.busyTx }) := by
      simp only [i2c_write_async]
      rw [if_neg (by simp : ¬ (Option.some dw = Option.none ∨ true = false)),
          if_neg (by omega : ¬ 2 ≤ inst), if_neg (by simp [hinit]),
          if_neg (by simp [hidle])]
    have hr0 : i2c_read_async s inst dev_addr (Option.some dp) 0 true =
        (Status.ok,
         setI2cHandle s inst
           { i2cHandleOf s inst with
             rx_buffer := Option.some dp, buffer_len := 0, buffer_idx := 0,
             dev_address := dev_addr, callback := true, state := I2cState.busyRx }) := by
      simp only [i2c_read_async]
      rw [if_neg (by simp : ¬ (Option.some dp = Option.none ∨ true = false)),
          if_neg (by omega : ¬ 2 ≤ inst), if_neg (by simp [hinit]),
          if_neg (by simp [hidle])]
    rw [hw0, hr0]
    refine ⟨rfl, ?_, rfl, ?_⟩ <;> simp

/-- Witness for the amended C1 theorem at a concrete busy instance. -/
theorem c1_busy_rejection_async_only_witness :
    i2c_write_async sBusyRx 0 9 (Option.some [1]) 1 true = (Status.busy, sBusyRx) ∧
    i2c_read_async sBusyRx 0 9 (Option.some 2) 1 true = (Status.busy, sBusyRx) := by
  have t := c1_busy_rejection_async_only sBusyRx 0 9 1 1 [1] 2 hwFast I2cState.busyTx
    (by decide) (by decide)
  exact t.1 (by decide)

/-- Witness for the amended C2 theorem: a blocking and an async read of
length 2 on instantly-responding hardware each issue exactly one ACK-clear
and one STOP. -/
theorem c2_read_ack_stop_discipline_witness :
    (i2c_read_blocking sGood 0 8 (Option.some 3) 2 1 hwFast).stops = 1 ∧
    (i2c_read_blocking sGood 0 8 (Option.some 3) 2 1 hwFast).ackClears = 1 ∧
    (runRxEvents (fun _ => 5)
        (i2c_irq_handler
          (i2c_irq_handler
            (asyncStateOf (i2c_read_async sGood 0 8 (Option.some 3) 2 true).2 0)
            sr1Sb 0)
          sr1Addr 0)
        2).stops = 1 ∧
    (runRxEvents (fun _ => 5)
        (i2c_irq_handler
          (i2c_irq_handler
            (asyncStateOf (i2c_read_async sGood 0 8 (Option.some 3) 2 true).2 0)
            sr1Sb 0)
          sr1Addr 0)
        2).ackClears = 1 := by
  have t := c2_read_ack_stop_discipline sGood 0 8 2 1 2 2 3 hwFast (fun _ => 5)
    (by decide) (by decide) (by decide)
  have h1 := t.1 (by decide) (by decide)
  have h2 := t.2 (by decide) (by decide) (by decide) (by decide)
  refine ⟨?_, ?_, ?_, ?_⟩
  · rw [h1.1]
    decide
  · rw [h1.2, h1.1]
    decide
  · rw [h2.1]
    decide
  · rw [h2.2]
    decide

/-- Witness for the amended C3 theorem: a blocking write of length 2 on
instantly-responding hardware issues one STOP and succeeds. -/
theorem c3_blocking_timeout_discipline_witness :
    (i2c_write_blocking sGood 0 8 (Option.some [1, 2]) 2 1 hwFast).stops = 1 ∧
    (i2c_write_blocking sGood 0 8 (Option.some [1, 2]) 2 1 hwFast).status = Status.ok := by
  have t := c3_blocking_timeout_discipline sGood 0 8 2 1 [1, 2] 3 hwFast
    (by decide) (by decide) (by decide)
  have h2 := t.2.1 (by decide)
  refine ⟨h2.1, ?_⟩
  rw [h2.2.1]
  decide

/-- Witness for the amended C4 theorem: a queue with head 7 and tail 0 is
full with 7 events and rejects an enqueue unchanged; the fresh queue
dequeues nothing. -/
theorem c4_queue_full_and_empty_witness :
    ble_enqueue_event { g_ble_handle with evt_queue_head := 7 } emptyBleEvent =
      (Status.error, { g_ble_handle with evt_queue_head := 7 }) ∧
    bleQueueCount { g_ble_handle with evt_queue_head := 7 } = 7 ∧
    ble_dequeue_event g_ble_handle = (Option.none, g_ble_handle) := by
  have t1 := c4_queue_full_and_empty { g_ble_handle with evt_queue_head := 7 } emptyBleEvent
    (by decide) (by decide)
  have t2 := c4_queue_full_and_empty g_ble_handle emptyBleEvent (by decide) (by decide)
  exact ⟨(t1.1 (by decide)).1, (t1.1 (by decide)).2, t2.2 (by decide)⟩

/-- Witness for the amended C5 theorem: an out-of-range instance is
rejected while a zero-length async write on a ready instance is accepted
and transitions to BUSY_TX. -/
theorem c5_async_validation_witness :
    i2c_write_async sGood 2 8 (Option.some [1]) 1 true = (Status.invalidParam, sGood) ∧
    (i2c_write_async sGood 0 8 (Option.some []) 0 true).1 = Status.ok ∧
    (i2cHandleOf (i2c_write_async sGood 0 8 (Option.some []) 0 true).2 0).state =
      I2cState.busyTx := by
  have ta := c5_async_validation_no_zero_len_check sGood 2 8 1 [1] 9
  have tb := c5_async_validation_no_zero_len_check sGood 0 8 1 [] 9
  refine ⟨(ta.2.2.2.2.1 (by decide)).1, ?_, ?_⟩
  · exact (tb.2.2.2.2.2.2 (by decide) (by decide) (by decide)).1
  · exact (tb.2.2.2.2.2.2 (by decide) (by decide) (by decide)).2.1

/-- Witness for the C6 theorem: processing the fresh initialized handle
delivers nothing, and processing after three enqueues delivers the three
events in FIFO order. -/
theorem c6_process_staged_then_fifo_witness :
    (ble_process { g_ble_handle with callback := true }).1 = [] ∧
    (ble_process
      (ble_enqueue_event
        ((ble_enqueue_event
          ((ble_enqueue_event { g_ble_handle with callback := true } emptyBleEvent).2)
          emptyBleEvent).2)
        emptyBleEvent).2).1 = [emptyBleEvent, emptyBleEvent, emptyBleEvent] := by
  have t := c6_process_staged_then_fifo { g_ble_handle with callback := true }
    (by decide) (by decide) (by decide)
  constructor
  · rw [t.1]
    decide
  · exact t.2 emptyBleEvent emptyBleEvent emptyBleEvent

/-- Witness for the C8 theorem at a hardware-reported length of 1000. -/
theorem ble_rx_len_clamped_witness :
    (ble_read_rx_data g_ble_handle 1000 (fun _ => 7)).1.rx_len = 244 ∧
    (ble_read_rx_data g_ble_handle 1000 (fun _ => 7)).1.rx_len ≤ 244 := by
  have t := ble_rx_len_clamped g_ble_handle 1000 (fun _ => 7)
  refine ⟨?_, t.2.1⟩
  rw [t.1]
  decide

end NavSys
